import Mathlib

/-!
Verification of the deplumi artifact build pipeline (deplumi/__init__.py,
deplumi/builders/pipenv.py, deplumi/resourcegen.py) as a shallow embedding.

The pipeline hashes a lock file with SHA3-256 to key a dependency cache
(`PipenvPackage.get_builddir`), materializes dependencies via subprocesses
(`PipenvPackage.warmup`, `PipenvPackage._call_subprocess`), bundles the result
into a zip (`PipenvPackage._build_zip`, `mkzinfo`, `PipenvPackage._filter`,
`_get_root`), and generates an accessor module (`ResourceGenerator.build`,
the HEADER/ITEM/FOOTER templates of resourcegen.py).
-/

namespace Deplumi

/-- A byte, as in a Python `bytes` object. -/
abbrev Byte := Fin 256

/-! ## SHA3-256 (hashlib.sha3_256), embedded from FIPS 202 Keccak

`PipenvPackage.get_builddir` calls `hashlib.sha3_256(contents).hexdigest()`.
We embed the actual SHA3-256 function: Keccak-f[1600] with rate 136 bytes and
the 0x06 domain-separation padding, output 32 bytes. Lanes are 64-bit words
represented as `Nat` values reduced mod 2^64. -/

/-- 64-bit mask value. -/
def w64 : Nat := 2 ^ 64

/-- Rotate a 64-bit lane left by `n` bits (0 ≤ n < 64). -/
def rotl64 (x n : Nat) : Nat :=
  ((x <<< n) ||| (x >>> (64 - n))) % w64

/-- Bitwise complement within 64 bits. -/
def not64 (x : Nat) : Nat := x ^^^ (w64 - 1)

/-- One step of the degree-8 LFSR of FIPS 202 Algorithm 5 (polynomial
x^8 + x^6 + x^5 + x^4 + 1, byte form 0x171). -/
def lfsrNext (r : Nat) : Nat :=
  if 128 ≤ r then ((r * 2) ^^^ 0x71) % 256 else r * 2

/-- LFSR state after `t` steps from the initial state 1. -/
def lfsrState : Nat → Nat
  | 0 => 1
  | t + 1 => lfsrNext (lfsrState t)

/-- Bit `rc(t)` of FIPS 202: the low bit of the LFSR state. -/
def rcBit (t : Nat) : Nat := lfsrState t % 2

/-- Round constant of round `i`: bit `rc(j + 7*i)` goes to position
`2^j - 1` for `j = 0..6`. -/
def keccakRCAt (i : Nat) : Nat :=
  (List.range 7).foldl (fun acc j => acc + rcBit (j + 7 * i) * 2 ^ (2 ^ j - 1)) 0

/-- The 24 Keccak round constants, derived from the LFSR definition. -/
def keccakRC : List Nat :=
  (List.range 24).map keccakRCAt

/-- The rho/pi walk of FIPS 202: starting from lane (1,0), step `t` assigns
rotation offset `(t+1)(t+2)/2 mod 64` to the current lane and moves to
`(y, (2x+3y) mod 5)`. Returns pairs (lane index `x + 5*y`, offset). -/
def keccakRotWalk : List (Nat × Nat) :=
  ((List.range 24).foldl
    (fun (st : (Nat × Nat) × List (Nat × Nat)) t =>
      let x := st.1.1
      let y := st.1.2
      ((y, (2 * x + 3 * y) % 5),
       (x + 5 * y, ((t + 1) * (t + 2) / 2) % 64) :: st.2))
    ((1, 0), [])).2

/-- Rotation offset of the lane at index `x + 5*y` (lane (0,0) is never
visited by the walk and keeps offset 0). -/
def keccakRotAt (i : Nat) : Nat :=
  (keccakRotWalk.lookup i).getD 0

/-- The Keccak state: 25 lanes, lane `(x, y)` at index `x + 5*y`. -/
abbrev KState := List Nat

/-- Theta step: xor each lane with a parity of two neighbouring columns. -/
def theta (A : KState) : KState :=
  let C := (List.range 5).map fun x =>
    (A.getD x 0) ^^^ (A.getD (x + 5) 0) ^^^ (A.getD (x + 10) 0) ^^^
    (A.getD (x + 15) 0) ^^^ (A.getD (x + 20) 0)
  let D := (List.range 5).map fun x =>
    (C.getD ((x + 4) % 5) 0) ^^^ rotl64 (C.getD ((x + 1) % 5) 0) 1
  (List.range 25).map fun i => (A.getD i 0) ^^^ (D.getD (i % 5) 0)

/-- Rho and pi steps combined: lane `(X, Y)` of the result is lane
`((X + 3*Y) % 5, X)` of the input rotated by its offset. -/
def rhoPi (A : KState) : KState :=
  (List.range 25).map fun j =>
    let X := j % 5
    let Y := j / 5
    let x := (X + 3 * Y) % 5
    let y := X
    rotl64 (A.getD (x + 5 * y) 0) (keccakRotAt (x + 5 * y))

/-- Chi step: nonlinear mixing along rows. -/
def chi (B : KState) : KState :=
  (List.range 25).map fun j =>
    let X := j % 5
    let Y := j / 5
    (B.getD j 0) ^^^ (not64 (B.getD ((X + 1) % 5 + 5 * Y) 0) &&& B.getD ((X + 2) % 5 + 5 * Y) 0)

/-- Iota step: xor a round constant into lane (0,0). -/
def iota (rc : Nat) (A : KState) : KState :=
  match A with
  | [] => []
  | a :: rest => (a ^^^ rc) :: rest

/-- One Keccak round. -/
def keccakRound (A : KState) (rc : Nat) : KState :=
  iota rc (chi (rhoPi (theta A)))

/-- The full Keccak-f[1600] permutation: 24 rounds. -/
def keccakF (A : KState) : KState :=
  keccakRC.foldl keccakRound A

/-- Eight little-endian bytes folded into one 64-bit lane. -/
def bytesToLane (bs : List Nat) : Nat :=
  bs.foldr (fun b acc => acc * 256 + b % 256) 0

/-- Worker for `chunksOf`: `taken` is the current chunk reversed, `n` the
remaining capacity of the current chunk. -/
def chunksOfGo (k : Nat) (taken : List α) (n : Nat) : List α → List (List α)
  | [] => [taken.reverse]
  | y :: ys =>
    match n with
    | 0 => taken.reverse :: chunksOfGo k [y] (k - 1) ys
    | m + 1 => chunksOfGo k (y :: taken) m ys

/-- Split a list into chunks of size `k` (k > 0); used for 8-byte lanes and
136-byte rate blocks. -/
def chunksOf (k : Nat) : List α → List (List α)
  | [] => []
  | x :: xs => chunksOfGo k [x] (k - 1) xs

/-- Absorb one 136-byte block into the state: xor its 17 lanes into the first
17 lanes, then permute. -/
def absorbBlock (A : KState) (block : List Nat) : KState :=
  let lanes := (chunksOf 8 block).map bytesToLane
  let A2 := (List.range 25).map fun i =>
    if i < 17 then (A.getD i 0) ^^^ (lanes.getD i 0) else A.getD i 0
  keccakF A2

/-- SHA3 multi-rate padding for rate 136: append 0x06, zero-fill, set the top
bit of the final byte (0x86 when a single pad byte remains). -/
def sha3Pad (msg : List Nat) : List Nat :=
  let r := 136
  let q := r - msg.length % r
  if q = 1 then msg ++ [0x86]
  else msg ++ [0x06] ++ List.replicate (q - 2) 0 ++ [0x80]

/-- Extract byte `i` of the squeezed output: byte `i % 8` (little-endian) of
lane `i / 8`. -/
def laneByte (A : KState) (i : Nat) : Nat :=
  ((A.getD (i / 8) 0) >>> (8 * (i % 8))) % 256

/-- SHA3-256 over raw byte values: absorb all padded blocks from the zero
state, then squeeze 32 bytes. -/
def sha3_256Raw (msg : List Nat) : List Nat :=
  let A0 : KState := List.replicate 25 0
  let A := ((chunksOf 136 (sha3Pad msg)).foldl absorbBlock A0)
  (List.range 32).map fun i => laneByte A i

/-- Embeds `hashlib.sha3_256(msg).digest()`: 32 output bytes. -/
def sha3_256 (msg : List Byte) : List Byte :=
  (sha3_256Raw (msg.map Fin.val)).map fun b => Fin.ofNat b

/-- Lower-case hex alphabet. -/
def hexChars : List Char :=
  "0123456789abcdef".data

/-- Embeds `hexdigest`: two lower-case hex characters per digest byte. -/
def hexdigest (bs : List Byte) : String :=
  String.mk (bs.foldr (fun b acc =>
    hexChars.getD (b.val / 16) '0' :: hexChars.getD (b.val % 16) '0' :: acc) [])

/-- The cache key of the dependency cache, as computed inside
`get_builddir`: the SHA3-256 hexdigest of the lock-specification bytes. -/
def cacheKey (lock : List Byte) : String := hexdigest (sha3_256 lock)

/-! ## Relative paths and the default bundling filter
(`_get_root` and `PipenvPackage._filter` of builders/pipenv.py) -/

/-- A relative `pathlib.Path` with at least one component: `first` is the
top-level component, `rest` the remaining components in order. -/
structure RelPath where
  first : String
  rest : List String
deriving DecidableEq

/-- Python `pathlib.Path.name`: the final component. -/
def RelPath.name (p : RelPath) : String :=
  p.rest.getLast?.getD p.first

/-- Python `pathlib.Path.as_posix()`: components joined by forward slashes. -/
def RelPath.as_posix (p : RelPath) : String :=
  p.rest.foldl (fun acc c => acc ++ "/" ++ c) p.first

/-- Embeds `_get_root(relpath)`: `relpath.parents` runs from longest to shortest and
ends with the one-element list `[.]` exactly when the path has a single
component, in which case the path itself is returned; otherwise `p[-2]`, the
first (top-level) directory, is returned. -/
def get_root (relpath : RelPath) : RelPath :=
  if relpath.rest.isEmpty then relpath
  else { first := relpath.first, rest := [] }

/-- Python `str.endswith(suffix)`: the string's characters end with the
suffix's characters. -/
def endswith (s suffix : String) : Bool :=
  List.isSuffixOf suffix.data s.data

/-- Embeds `PipenvPackage._filter(path)`: exclude entries whose root's name ends in
`.dist-info` (unnecessary metadata) or is `boto3`/`botocore` (provided by the
runtime); include everything else. -/
def PipenvPackage.filterPath (path : RelPath) : Bool :=
  let root := get_root path
  if endswith root.name ".dist-info" then false
  else if root.name = "boto3" || root.name = "botocore" then false
  else true

/-! ## Zip bundling (`mkzinfo` and `PipenvPackage._build_zip`) -/

/-- A zip entry timestamp: `zipfile.ZipInfo`'s default `date_time` is the
minimum DOS date (1980-01-01 00:00:00); `ZipFile.write` stamps the source
file's modification time. -/
inductive ZTime
  | dosEpoch
  | mtime (t : Nat)
deriving DecidableEq

/-- Entry payloads: `ZipFile.write` stores file bytes, `ZipFile.writestr` here
receives the generated module text (a `str`, UTF-8 encoded on write; the
encoding is injective, so equality of payloads is equality of stored bytes). -/
inductive EntryData
  | bytes (bs : List Byte)
  | text (s : String)
deriving DecidableEq

/-- The part of a `zipfile.ZipInfo` that `mkzinfo` determines. -/
structure ZInfo where
  filename : String
  date_time : ZTime
deriving DecidableEq

/-- Embeds `mkzinfo(name, contents)`: a ZipInfo for a virtual name; `date_time`
defaults to the minimum date. -/
def mkzinfo (name : String) (contents : String) : ZInfo :=
  { filename := name, date_time := ZTime.dosEpoch }

/-- One archive entry: name, payload, timestamp. -/
structure ZipEntry where
  name : String
  data : EntryData
  time : ZTime
deriving DecidableEq

/-- A file found while walking a source tree: its path relative to the tree
root, its content bytes, and its host modification time. -/
structure SrcFile where
  relpath : RelPath
  data : List Byte
  mtime : Nat
deriving DecidableEq

/-- An entry's name and payload, without its timestamp. -/
def ZipEntry.nameData (e : ZipEntry) : String × EntryData := (e.name, e.data)

/-- The logical content of a walked file: relative path and bytes, without
the host modification time. -/
def SrcFile.logical (f : SrcFile) : RelPath × List Byte := (f.relpath, f.data)

/-- Embeds `PipenvPackage._build_zip(dest, *sources, virtuals, filter)`: walk each
source tree, include each file under its forward-slash relative path when the
filter (if any) accepts it — `ZipFile.write` stamps the file's mtime; then
write each virtual file via `mkzinfo`, unfiltered. Returns the entries of the
archive written at `dest`, in write order. -/
def PipenvPackage.build_zip (dest : String) (sources : List (List SrcFile))
    (virtuals : List (String × String)) (filt : Option (RelPath → Bool)) :
    List ZipEntry :=
  (sources.flatMap fun source =>
    (source.filter fun child =>
      match filt with
      | none => true
      | some f => f child.relpath).map fun child =>
        { name := child.relpath.as_posix
          data := EntryData.bytes child.data
          time := ZTime.mtime child.mtime })
  ++ virtuals.map fun nd =>
      let zi := mkzinfo nd.1 nd.2
      { name := zi.filename, data := EntryData.text nd.2, time := zi.date_time }

/-! ## Process runner (`PipenvPackage._call_subprocess`) -/

/-- Embeds `subprocess.SubprocessError` exactly as raised by
`_call_subprocess`: the bare class, constructed with no arguments, so the
value carries no exit status and no captured output. -/
inductive SubprocessError
  | mk
deriving DecidableEq

/-- What the OS reports for one child process: fully captured stdout and
stderr, and the exit status. -/
structure ProcOutcome where
  stdout : List Byte
  stderr : List Byte
  returncode : Int
deriving DecidableEq

/-- Embeds `PipenvPackage._call_subprocess`: wait for the process, capture
both streams; if `check` and the exit status is nonzero, raise the bare
`subprocess.SubprocessError`; otherwise return `(stdout, stderr)`. -/
def PipenvPackage.call_subprocess (proc : ProcOutcome) (check : Bool) :
    Except SubprocessError (List Byte × List Byte) :=
  if check ∧ proc.returncode ≠ 0 then Except.error SubprocessError.mk
  else Except.ok (proc.stdout, proc.stderr)

/-- Error kinds surfaced by the build pipeline: `OSError("Unable to detect
package type")` from `build_zip_package`, a propagated subprocess failure,
and the `KeyError` from the `BUILDERS` lookup in `ResourceGenerator.build`. -/
inductive BuildError
  | unsupportedPackageType
  | processFailure (e : SubprocessError)
  | unknownResourceType (fqn : String)
deriving DecidableEq

/-! ## Dependency cache (`PipenvPackage.get_builddir`, `PipenvPackage.warmup`) -/

/-- The external commands `warmup` launches: `pipenv lock --requirements`
(the resolver export) and `pip install --target <builddir> -r <reqs>`. -/
inductive Proc
  | pipenvLockRequirements
  | pipInstall (target : String)
deriving DecidableEq

/-- The fixed cache root `/tmp/deplumi` (created with `exist_ok=True`). -/
def buildroot : String := "/tmp/deplumi"

/-- Embeds `PipenvPackage.get_builddir`: the build directory is the cache
root joined with the SHA3-256 hexdigest of the lock file's bytes. -/
def PipenvPackage.get_builddir (lock : List Byte) : String :=
  buildroot ++ "/" ++ cacheKey lock

/-- Outcome of one `warmup` call: the directories existing afterwards, the
subprocesses launched, and normal or exceptional return. -/
structure WarmupResult where
  fs : List String
  calls : List Proc
  result : Except SubprocessError Unit

/-- Embeds `PipenvPackage.warmup` over a filesystem state `fs` (the set of
existing directories) and a process oracle `run`: if the build directory
already exists nothing is done; otherwise it is created (`mkdir` precedes the
subprocess work, so it persists even when a later step fails), the resolver
export runs, and on its success the installer runs, each checked through
`call_subprocess`. -/
def PipenvPackage.warmup (run : Proc → ProcOutcome) (fs : List String)
    (lock : List Byte) : WarmupResult :=
  let builddir := PipenvPackage.get_builddir lock
  if builddir ∈ fs then { fs := fs, calls := [], result := Except.ok () }
  else
    let fs2 := builddir :: fs
    match PipenvPackage.call_subprocess (run Proc.pipenvLockRequirements) true with
    | Except.error e =>
        { fs := fs2, calls := [Proc.pipenvLockRequirements], result := Except.error e }
    | Except.ok _ =>
      match PipenvPackage.call_subprocess (run (Proc.pipInstall builddir)) true with
      | Except.error e =>
          { fs := fs2, calls := [Proc.pipenvLockRequirements, Proc.pipInstall builddir],
            result := Except.error e }
      | Except.ok _ =>
          { fs := fs2, calls := [Proc.pipenvLockRequirements, Proc.pipInstall builddir],
            result := Except.ok () }

/-- The cache materialization step of the spec: `get_builddir` followed by
`warmup`, returning the build-directory path together with the warmup
outcome. -/
def ensure_materialized (run : Proc → ProcOutcome) (fs : List String)
    (lock : List Byte) : String × WarmupResult :=
  (PipenvPackage.get_builddir lock, PipenvPackage.warmup run fs lock)

/-! ## Accessor code generator (resourcegen.py) -/

/-- A live resource handle as the generator sees it: the fully-qualified name
of its concrete type (`get_fqn`) and its resolved attribute values (the
`pulumi.Output.all(...).future()` results, one per attribute name). -/
structure PulumiResource where
  fqn : String
  attr : String → String

/-- The builder-descriptor registry `BUILDERS` of resourcegen.py: full type
name to (attribute names, expression reconstructing a boto3 object). -/
def BUILDERS : List (String × (List String × String)) :=
  [("pulumi_aws.s3.bucket.Bucket",
    (["bucket"], "boto3.resource(\x27s3\x27).Bucket(bucket)"))]

/-- One record of the generated `_resources` table: the logical name, the
attribute names (the lambda's parameters), the reconstruction expression, and
the resolved attribute values. -/
structure ResItem where
  name : String
  attrs : List String
  expr : String
  values : List String
deriving DecidableEq

/-- The semantic content of `ResourceGenerator.build`'s loop: for each
binding in order, look its type up in `BUILDERS` (`KeyError`, i.e.
`unknownResourceType`, when absent) and record name, attrs, expression and
resolved values. -/
def ResourceGenerator.table :
    List (String × PulumiResource) → Except BuildError (List ResItem)
  | [] => Except.ok []
  | (name, res) :: rest =>
    match BUILDERS.lookup res.fqn with
    | none => Except.error (BuildError.unknownResourceType res.fqn)
    | some (attrs, expr) =>
      match ResourceGenerator.table rest with
      | Except.error e => Except.error e
      | Except.ok t =>
          Except.ok ({ name := name, attrs := attrs, expr := expr,
                       values := attrs.map res.attr } :: t)

/-- Python `repr` of a string without quotes or escapes in it. -/
def pyStrRepr (s : String) : String := "\x27" ++ s ++ "\x27"

/-- Python `repr` of a tuple of such strings. -/
def pyTupleRepr : List String → String
  | [] => "()"
  | [v] => "(" ++ pyStrRepr v ++ ",)"
  | vs => "(" ++ String.intercalate ", " (vs.map pyStrRepr) ++ ")"

/-- The HEADER template of resourcegen.py. -/
def HEADER : String :=
  "\nimport boto3\nimport functools\n\n_resources = \x7b\n"

/-- The ITEM template of resourcegen.py instantiated for one record:
`{name!r}: ((lambda {args}: {expr}), {values!r}),`. -/
def itemText (it : ResItem) : String :=
  "\n    " ++ pyStrRepr it.name ++ ": ((lambda " ++
  String.intercalate ", " it.attrs ++ ": " ++ it.expr ++ "), " ++
  pyTupleRepr it.values ++ "),\n"

/-- The FOOTER template of resourcegen.py: the memoized module-level
`__getattr__`. -/
def FOOTER : String :=
  "\n\x7d\n\n@functools.lru_cache()\ndef __getattr__(name):\n    if name not in _resources:\n        raise AttributeError(f\"\x7bname\x7d is not a defined resource\")\n    ctor, args = _resources[name]\n    return ctor(*args)\n"

/-- Embeds `ResourceGenerator.build`: HEADER, one ITEM per binding in order,
FOOTER; fails with the `BUILDERS` lookup failure of the first unregistered
binding. (The final `ast.parse` self-check of the Python stdlib is not
modelled; it does not alter the returned text.) -/
def ResourceGenerator.build (resources : List (String × PulumiResource)) :
    Except BuildError String :=
  match ResourceGenerator.table resources with
  | Except.error e => Except.error e
  | Except.ok t => Except.ok (HEADER ++ String.join (t.map itemText) ++ FOOTER)

/-! ## Semantics of the generated accessor module (the FOOTER template) -/

/-- The client object `ctor(*args)` builds: `ctor` is `lambda attrs: expr`,
so the object is determined by the expression and the attribute names bound
to the resolved values. -/
structure Client where
  expr : String
  attrs : List String
  values : List String
deriving DecidableEq

/-- The `AttributeError` the generated `__getattr__` raises. -/
inductive AttrError
  | attributeError (msg : String)
deriving DecidableEq

/-- Semantics of the generated module's `__getattr__` under
`functools.lru_cache`: a cached name returns its cached client unchanged; an
uncached name absent from `_resources` raises (exceptions are not cached);
an uncached present name builds the client from its record and caches it. -/
def moduleGetattr (table : List ResItem) (cache : List (String × Client))
    (name : String) : Except AttrError Client × List (String × Client) :=
  match cache.lookup name with
  | some c => (Except.ok c, cache)
  | none =>
    match table.find? (fun it => it.name == name) with
    | none =>
        (Except.error (AttrError.attributeError (name ++ " is not a defined resource")),
         cache)
    | some it =>
      let c : Client := { expr := it.expr, attrs := it.attrs, values := it.values }
      (Except.ok c, (name, c) :: cache)

/-! ## Build step and orchestrator (`PipenvPackage.build`,
`build_zip_package` of deplumi/__init__.py) -/

/-- Embeds `PipenvPackage.build`: generate the accessor module, then zip the
materialized build directory and the source root with the generated
`__res__.py` as the only virtual file, filtered by `_filter`, into
`<builddir>.zip`. -/
def PipenvPackage.build (lock : List Byte) (depFiles rootFiles : List SrcFile)
    (resources : List (String × PulumiResource)) :
    Except BuildError (String × List ZipEntry) :=
  match ResourceGenerator.build resources with
  | Except.error e => Except.error e
  | Except.ok contents =>
    let builddir := PipenvPackage.get_builddir lock
    let dest := builddir ++ ".zip"
    Except.ok (dest, PipenvPackage.build_zip dest [depFiles, rootFiles]
      [("__res__.py", contents)] (some PipenvPackage.filterPath))

/-- A source directory as `build_zip_package` inspects it: whether a
`Pipfile` is present, the bytes of `Pipfile.lock`, and its file tree. -/
structure SourceDir where
  hasPipfile : Bool
  lock : List Byte
  files : List SrcFile

/-- Observable steps of one orchestrated build. -/
inductive Event
  | selectPipenv
  | procCall (p : Proc)
  | archiveBuild (dest : String)
deriving DecidableEq

/-- Outcome of `build_zip_package`: final filesystem state, the ordered
events, and the returned archive path or error. -/
structure OrchResult where
  fs : List String
  events : List Event
  result : Except BuildError String

/-- Embeds `build_zip_package` of deplumi/__init__.py: select the pipenv
builder when a `Pipfile` exists (otherwise `OSError` before any cache or
process work), run `warmup`, then `PipenvPackage.build`, returning the
bundle path. -/
def build_zip_package (run : Proc → ProcOutcome) (fs : List String)
    (d : SourceDir) (resources : List (String × PulumiResource))
    (depFiles : List SrcFile) : OrchResult :=
  if d.hasPipfile = false then
    { fs := fs, events := [], result := Except.error BuildError.unsupportedPackageType }
  else
    let w := PipenvPackage.warmup run fs d.lock
    let evs := Event.selectPipenv :: w.calls.map Event.procCall
    match w.result with
    | Except.error e =>
        { fs := w.fs, events := evs,
          result := Except.error (BuildError.processFailure e) }
    | Except.ok _ =>
      match PipenvPackage.build d.lock depFiles d.files resources with
      | Except.error e => { fs := w.fs, events := evs, result := Except.error e }
      | Except.ok (dest, _) =>
          { fs := w.fs, events := evs ++ [Event.archiveBuild dest],
            result := Except.ok dest }

/-! ## Theorems -/

/-- The name `_get_root` extracts is always the top-level path component. -/
theorem name_get_root (p : RelPath) : (get_root p).name = p.first := by
  cases p with
  | mk first rest => cases rest <;> simp [get_root, RelPath.name]

/-- The default filter rejects a path exactly when its top-level component
ends in `.dist-info` or is `boto3` or `botocore`. -/
theorem filterPath_eq_false_iff (p : RelPath) :
    PipenvPackage.filterPath p = false ↔
      (endswith p.first ".dist-info" = true ∨ p.first = "boto3" ∨ p.first = "botocore") := by
  simp only [PipenvPackage.filterPath, name_get_root]
  by_cases h1 : endswith p.first ".dist-info" = true
  · simp [h1]
  · by_cases h2 : p.first = "boto3"
    · simp [h1, h2]
    · by_cases h3 : p.first = "botocore"
      · simp [h1, h2, h3]
      · simp [h1, h2, h3]

/-- C5: the default filter excludes `foo.dist-info/METADATA` and
`boto3/client.py` and includes `app/handler.py`; in general it excludes
exactly the entries whose top-level component ends in `.dist-info` or is one
of the runtime-supplied names `boto3`, `botocore`, and includes all others. -/
theorem claim_C5 :
    PipenvPackage.filterPath ⟨"foo.dist-info", ["METADATA"]⟩ = false
    ∧ PipenvPackage.filterPath ⟨"boto3", ["client.py"]⟩ = false
    ∧ PipenvPackage.filterPath ⟨"app", ["handler.py"]⟩ = true
    ∧ ∀ p : RelPath, PipenvPackage.filterPath p = false ↔
        (endswith p.first ".dist-info" = true ∨ p.first = "boto3" ∨ p.first = "botocore") :=
  ⟨by decide, by decide, by decide, filterPath_eq_false_iff⟩

/-- C10: the exclusion test applies to the first path component, which for a
depth-one path is the entry itself — a top-level file named `boto3` or ending
in `.dist-info` is excluded — and a deeper path is judged exactly as the
depth-one path of its top-level directory. -/
theorem claim_C10 :
    (∀ s : String, PipenvPackage.filterPath ⟨s, []⟩ = false ↔
        (endswith s ".dist-info" = true ∨ s = "boto3" ∨ s = "botocore"))
    ∧ (∀ (s : String) (rest : List String),
        PipenvPackage.filterPath ⟨s, rest⟩ = PipenvPackage.filterPath ⟨s, []⟩)
    ∧ PipenvPackage.filterPath ⟨"boto3", []⟩ = false
    ∧ PipenvPackage.filterPath ⟨"foo.dist-info", []⟩ = false := by
  refine ⟨fun s => filterPath_eq_false_iff ⟨s, []⟩, ?_, by decide, by decide⟩
  intro s rest
  by_cases h : PipenvPackage.filterPath ⟨s, rest⟩ = false
  · rw [h, ((filterPath_eq_false_iff ⟨s, []⟩).mpr ((filterPath_eq_false_iff ⟨s, rest⟩).mp h))]
  · have h2 : ¬ PipenvPackage.filterPath ⟨s, []⟩ = false := by
      intro hc
      exact h ((filterPath_eq_false_iff ⟨s, rest⟩).mpr
        ((filterPath_eq_false_iff ⟨s, []⟩).mp hc))
    simp only [Bool.not_eq_false] at h h2
    rw [h, h2]

/-- C3 counterexample: the claim requires the raised error to carry the exit
status, i.e. some extraction from the error value must recover it; no such
extraction exists, because `_call_subprocess` raises the identical bare
`subprocess.SubprocessError` for exit status 1 (stdout `[1]`, stderr `[2]`)
and exit status 2 (stdout `[3]`, stderr `[4]`). The same two runs show the
captured stdout/stderr are not recoverable from the failure either. -/
theorem claim_C3_counterexample :
    ¬ ∃ getStatus : SubprocessError → Int,
        ∀ p : ProcOutcome, p.returncode ≠ 0 →
          ∀ e, PipenvPackage.call_subprocess p true = Except.error e →
            getStatus e = p.returncode := by
  rintro ⟨g, hg⟩
  have h1 : g SubprocessError.mk = 1 :=
    hg ⟨[1], [2], 1⟩ (by decide) SubprocessError.mk (by rfl)
  have h2 : g SubprocessError.mk = 2 :=
    hg ⟨[3], [4], 2⟩ (by decide) SubprocessError.mk (by rfl)
  exact absurd (h1.symm.trans h2) (by decide)

/-- C3 amended: with `check` and nonzero exit status, `_call_subprocess`
fails with the bare `SubprocessError`, a value that carries neither the exit
status nor the captured output — all failing invocations produce the
identical error, and the captured stdout/stderr are returned to the caller
only when no error is raised. -/
theorem claim_C3_amended (p : ProcOutcome) (h : p.returncode ≠ 0) :
    PipenvPackage.call_subprocess p true = Except.error SubprocessError.mk
    ∧ (∀ q : ProcOutcome, q.returncode ≠ 0 →
        PipenvPackage.call_subprocess p true = PipenvPackage.call_subprocess q true)
    ∧ (∀ q : ProcOutcome, q.returncode = 0 →
        PipenvPackage.call_subprocess q true = Except.ok (q.stdout, q.stderr)) := by
  refine ⟨by simp [PipenvPackage.call_subprocess, h], ?_, ?_⟩
  · intro q hq
    simp [PipenvPackage.call_subprocess, h, hq]
  · intro q hq
    simp [PipenvPackage.call_subprocess, hq]

/-- C3 amended, witness at exit status 1. -/
theorem claim_C3_amended_witness :
    PipenvPackage.call_subprocess ⟨[1], [2], 1⟩ true = Except.error SubprocessError.mk :=
  (claim_C3_amended ⟨[1], [2], 1⟩ (by decide)).1

/-- After any `warmup` call the build directory for the lock bytes exists
(its `mkdir` precedes the subprocess work, so this holds even when the
resolver or the installer fails). -/
theorem get_builddir_mem_warmup (run : Proc → ProcOutcome) (fs : List String)
    (lock : List Byte) :
    PipenvPackage.get_builddir lock ∈ (PipenvPackage.warmup run fs lock).fs := by
  unfold PipenvPackage.warmup
  by_cases h : PipenvPackage.get_builddir lock ∈ fs
  · simp [h]
  · simp only [h, if_false]
    cases PipenvPackage.call_subprocess (run Proc.pipenvLockRequirements) true with
    | error e => simp
    | ok v =>
      cases PipenvPackage.call_subprocess
        (run (Proc.pipInstall (PipenvPackage.get_builddir lock))) true <;> simp

/-- When the build directory already exists, `warmup` does nothing: no
subprocess is launched, the filesystem is unchanged, and it returns
normally. -/
theorem warmup_of_mem (run : Proc → ProcOutcome) (fs : List String)
    (lock : List Byte) (h : PipenvPackage.get_builddir lock ∈ fs) :
    PipenvPackage.warmup run fs lock = ⟨fs, [], Except.ok ()⟩ := by
  unfold PipenvPackage.warmup
  simp [h]

/-- C2: materializing twice with identical lock bytes yields the same
build-directory path both times; after the first call the directory exists,
and the second call launches no subprocess, leaves the filesystem unchanged,
and returns normally. -/
theorem claim_C2 (run : Proc → ProcOutcome) (fs : List String) (lock : List Byte) :
    (ensure_materialized run fs lock).1 =
      (ensure_materialized run (PipenvPackage.warmup run fs lock).fs lock).1
    ∧ PipenvPackage.get_builddir lock ∈ (PipenvPackage.warmup run fs lock).fs
    ∧ PipenvPackage.warmup run (PipenvPackage.warmup run fs lock).fs lock =
        ⟨(PipenvPackage.warmup run fs lock).fs, [], Except.ok ()⟩ :=
  ⟨rfl, get_builddir_mem_warmup run fs lock,
   warmup_of_mem run _ lock (get_builddir_mem_warmup run fs lock)⟩

/-- C8: a source directory without a Pipfile fails with the
unsupported-package-type error before any cache or subprocess work (no
events, filesystem untouched); with a Pipfile present, the pipenv builder is
selected first. -/
theorem claim_C8 :
    (∀ (run : Proc → ProcOutcome) (fs : List String) (d : SourceDir)
        (resources : List (String × PulumiResource)) (depFiles : List SrcFile),
        d.hasPipfile = false →
        build_zip_package run fs d resources depFiles =
          ⟨fs, [], Except.error BuildError.unsupportedPackageType⟩)
    ∧ (∀ (run : Proc → ProcOutcome) (fs : List String) (d : SourceDir)
        (resources : List (String × PulumiResource)) (depFiles : List SrcFile),
        d.hasPipfile = true →
        (build_zip_package run fs d resources depFiles).events.head? =
          some Event.selectPipenv) := by
  constructor
  · intro run fs d resources depFiles h
    unfold build_zip_package
    rw [h]
    simp
  · intro run fs d resources depFiles h
    unfold build_zip_package
    rw [h, if_neg (by decide)]
    cases hres : (PipenvPackage.warmup run fs d.lock).result with
    | error e => simp [hres]
    | ok u =>
      cases hb : PipenvPackage.build d.lock depFiles d.files resources with
      | error e => simp [hres, hb]
      | ok pr => cases pr with
        | mk dest entries => simp [hres, hb]

/-- C8 witness: a concrete directory without a Pipfile aborts with no events,
and one with a Pipfile selects the pipenv builder first. -/
theorem claim_C8_witness :
    build_zip_package (fun _ => ⟨[], [], 0⟩) [] ⟨false, [], []⟩ [] [] =
      ⟨[], [], Except.error BuildError.unsupportedPackageType⟩
    ∧ (build_zip_package (fun _ => ⟨[], [], 0⟩) [] ⟨true, [], []⟩ [] []).events.head? =
        some Event.selectPipenv :=
  ⟨claim_C8.1 _ _ _ _ _ rfl, claim_C8.2 _ _ _ _ _ rfl⟩

/-- C7: when the build directory is fresh, the resolver export succeeds, and
the installer exits nonzero, the orchestrated build fails with the propagated
process failure and no archive-build step is ever reached. -/
theorem claim_C7 (run : Proc → ProcOutcome) (fs : List String) (d : SourceDir)
    (resources : List (String × PulumiResource)) (depFiles : List SrcFile)
    (hpip : d.hasPipfile = true)
    (hnew : PipenvPackage.get_builddir d.lock ∉ fs)
    (hres : (run Proc.pipenvLockRequirements).returncode = 0)
    (hinst : (run (Proc.pipInstall (PipenvPackage.get_builddir d.lock))).returncode ≠ 0) :
    (build_zip_package run fs d resources depFiles).result =
      Except.error (BuildError.processFailure SubprocessError.mk)
    ∧ ∀ dest, Event.archiveBuild dest ∉ (build_zip_package run fs d resources depFiles).events := by
  have hw : PipenvPackage.warmup run fs d.lock =
      ⟨PipenvPackage.get_builddir d.lock :: fs,
       [Proc.pipenvLockRequirements, Proc.pipInstall (PipenvPackage.get_builddir d.lock)],
       Except.error SubprocessError.mk⟩ := by
    unfold PipenvPackage.warmup
    rw [if_neg hnew]
    simp [PipenvPackage.call_subprocess, hres, hinst]
  constructor
  · unfold build_zip_package
    rw [hpip, if_neg (by decide)]
    simp [hw]
  · intro dest
    unfold build_zip_package
    rw [hpip, if_neg (by decide)]
    simp [hw]

/-- C7 witness: a concrete fresh build whose installer exits with status 1
fails with the process failure. -/
theorem claim_C7_witness :
    (build_zip_package
        (fun p => match p with
          | Proc.pipenvLockRequirements => ⟨[], [], 0⟩
          | Proc.pipInstall _ => ⟨[], [], 1⟩)
        [] ⟨true, [], []⟩ [] []).result =
      Except.error (BuildError.processFailure SubprocessError.mk) :=
  (claim_C7 _ [] ⟨true, [], []⟩ [] [] rfl (by simp) rfl (by decide)).1

/-- A binding whose type has no `BUILDERS` entry makes the table computation
fail with an unknown-resource-type error. -/
theorem table_error_of_missing :
    ∀ (resources : List (String × PulumiResource)) (nr : String × PulumiResource),
      nr ∈ resources → BUILDERS.lookup nr.2.fqn = none →
      ∃ fqn, ResourceGenerator.table resources =
        Except.error (BuildError.unknownResourceType fqn) := by
  intro resources
  induction resources with
  | nil => intro nr h _; exact absurd h (List.not_mem_nil nr)
  | cons head rest ih =>
    obtain ⟨hn, hr⟩ := head
    intro nr hmem hnone
    cases hl : BUILDERS.lookup hr.fqn with
    | none => exact ⟨hr.fqn, by simp [ResourceGenerator.table, hl]⟩
    | some ae =>
      obtain ⟨attrs, expr⟩ := ae
      rcases List.mem_cons.mp hmem with heq | hmem2
      · rw [heq] at hnone
        simp only [] at hnone
        rw [hl] at hnone
        cases hnone
      · obtain ⟨f, hf⟩ := ih nr hmem2 hnone
        exact ⟨f, by simp [ResourceGenerator.table, hl, hf]⟩

/-- When every binding's type is registered, the table computation
succeeds. -/
theorem table_ok_of_all :
    ∀ resources : List (String × PulumiResource),
      (∀ nr ∈ resources, (BUILDERS.lookup nr.2.fqn).isSome) →
      ∃ t, ResourceGenerator.table resources = Except.ok t := by
  intro resources
  induction resources with
  | nil => intro _; exact ⟨[], rfl⟩
  | cons head rest ih =>
    obtain ⟨hn, hr⟩ := head
    intro hall
    have hhead := hall (hn, hr) (List.mem_cons_self _ _)
    cases hl : BUILDERS.lookup hr.fqn with
    | none => rw [hl] at hhead; cases hhead
    | some ae =>
      obtain ⟨attrs, expr⟩ := ae
      obtain ⟨t, ht⟩ := ih fun nr h => hall nr (List.mem_cons_of_mem _ h)
      exact ⟨{ name := hn, attrs := attrs, expr := expr,
               values := attrs.map hr.attr } :: t,
             by simp [ResourceGenerator.table, hl, ht]⟩

/-- C9: generation fails with an unknown-resource-type error whenever some
binding's concrete type has no registered descriptor, and succeeds with
source text when every binding's type is registered. -/
theorem claim_C9 :
    (∀ (resources : List (String × PulumiResource)) (nr : String × PulumiResource),
        nr ∈ resources → BUILDERS.lookup nr.2.fqn = none →
        ∃ fqn, ResourceGenerator.build resources =
          Except.error (BuildError.unknownResourceType fqn))
    ∧ (∀ resources : List (String × PulumiResource),
        (∀ nr ∈ resources, (BUILDERS.lookup nr.2.fqn).isSome) →
        ∃ s, ResourceGenerator.build resources = Except.ok s) := by
  constructor
  · intro resources nr hmem hnone
    obtain ⟨f, hf⟩ := table_error_of_missing resources nr hmem hnone
    exact ⟨f, by simp [ResourceGenerator.build, hf]⟩
  · intro resources hall
    obtain ⟨t, ht⟩ := table_ok_of_all resources hall
    exact ⟨HEADER ++ String.join (t.map itemText) ++ FOOTER,
           by simp [ResourceGenerator.build, ht]⟩

/-- C9 witness: an unregistered type `foo.Bar` fails; a registered s3 bucket
binding succeeds. -/
theorem claim_C9_witness :
    (∃ fqn, ResourceGenerator.build [("q", ⟨"foo.Bar", fun _ => ""⟩)] =
        Except.error (BuildError.unknownResourceType fqn))
    ∧ ∃ s, ResourceGenerator.build
        [("bucket", ⟨"pulumi_aws.s3.bucket.Bucket", fun _ => "my-bucket"⟩)] =
          Except.ok s :=
  ⟨claim_C9.1 _ ("q", ⟨"foo.Bar", fun _ => ""⟩) (List.mem_singleton.mpr rfl) rfl,
   claim_C9.2 _ (by
     rintro nr hnr
     rw [List.mem_singleton] at hnr
     subst hnr
     rfl)⟩

/-- In a successfully generated table with distinct logical names, the
record found for a bound name is built from that binding's registered
descriptor and its resolved attribute values. -/
theorem table_find :
    ∀ (resources : List (String × PulumiResource)) (t : List ResItem)
      (name : String) (res : PulumiResource) (attrs : List String) (expr : String),
      ResourceGenerator.table resources = Except.ok t →
      (resources.map Prod.fst).Nodup →
      (name, res) ∈ resources →
      BUILDERS.lookup res.fqn = some (attrs, expr) →
      t.find? (fun it => it.name == name) =
        some ⟨name, attrs, expr, attrs.map res.attr⟩ := by
  intro resources
  induction resources with
  | nil => intro t name res attrs expr _ _ hmem _; exact absurd hmem (List.not_mem_nil _)
  | cons head rest ih =>
    obtain ⟨hn, hr⟩ := head
    intro t name res attrs expr ht hnd hmem hlook
    cases hl : BUILDERS.lookup hr.fqn with
    | none => simp [ResourceGenerator.table, hl] at ht
    | some ae =>
      obtain ⟨a2, e2⟩ := ae
      cases hres : ResourceGenerator.table rest with
      | error e => simp [ResourceGenerator.table, hl, hres] at ht
      | ok t2 =>
        have ht2 : t = { name := hn, attrs := a2, expr := e2,
                         values := a2.map hr.attr } :: t2 := by
          simp [ResourceGenerator.table, hl, hres] at ht
          exact ht.symm
        obtain ⟨hhd, hnd2⟩ := List.nodup_cons.mp hnd
        rcases List.mem_cons.mp hmem with heq | hmem2
        · injection heq with h1 h2
          subst h1
          subst h2
          rw [hl] at hlook
          injection hlook with ha
          injection ha with ha1 ha2
          subst ha1
          subst ha2
          rw [ht2]
          simp [List.find?]
        · have hne : hn ≠ name := by
            intro hc
            subst hc
            exact hhd (List.mem_map.mpr ⟨(hn, res), hmem2, rfl⟩)
          rw [ht2]
          rw [List.find?]
          have : (({ name := hn, attrs := a2, expr := e2,
                     values := a2.map hr.attr } : ResItem).name == name) = false := by
            simp [hne]
          rw [this]
          exact ih t2 name res attrs expr hres hnd2 hmem2 hlook

/-- C6: in the generated accessor module, a bound name looks up to the client
reconstructed from that binding's descriptor expression and resolved values
(and is cached); a repeated lookup returns the first lookup's cached result
and leaves the cache unchanged; an unbound name fails with the
"is not a defined resource" error. -/
theorem claim_C6 :
    (∀ (resources : List (String × PulumiResource)) (t : List ResItem)
        (name : String) (res : PulumiResource) (attrs : List String) (expr : String),
        ResourceGenerator.table resources = Except.ok t →
        (resources.map Prod.fst).Nodup →
        (name, res) ∈ resources →
        BUILDERS.lookup res.fqn = some (attrs, expr) →
        moduleGetattr t [] name =
          (Except.ok ⟨expr, attrs, attrs.map res.attr⟩,
           [(name, ⟨expr, attrs, attrs.map res.attr⟩)]))
    ∧ (∀ (t : List ResItem) (cache : List (String × Client)) (name : String)
        (r : Client) (c1 : List (String × Client)),
        moduleGetattr t cache name = (Except.ok r, c1) →
        moduleGetattr t c1 name = (Except.ok r, c1))
    ∧ (∀ (resources : List (String × PulumiResource)) (t : List ResItem)
        (name : String),
        ResourceGenerator.table resources = Except.ok t →
        name ∉ resources.map Prod.fst →
        moduleGetattr t [] name =
          (Except.error (AttrError.attributeError (name ++ " is not a defined resource")),
           [])) := by
  refine ⟨?_, ?_, ?_⟩
  · intro resources t name res attrs expr ht hnd hmem hlook
    have hfind := table_find resources t name res attrs expr ht hnd hmem hlook
    simp [moduleGetattr, List.lookup, hfind]
  · intro t cache name r c1 h
    unfold moduleGetattr at h ⊢
    cases hc : List.lookup name cache with
    | some c =>
      rw [hc] at h
      simp only [Prod.mk.injEq, Except.ok.injEq] at h
      obtain ⟨h1, h2⟩ := h
      subst h1
      subst h2
      rw [hc]
    | none =>
      rw [hc] at h
      cases hf : t.find? (fun it => it.name == name) with
      | none => rw [hf] at h; simp at h
      | some it =>
        rw [hf] at h
        simp only [Prod.mk.injEq, Except.ok.injEq] at h
        obtain ⟨h1, h2⟩ := h
        subst h1
        rw [← h2]
        simp [List.lookup]
  · intro resources t name ht hnot
    have hnames : t.map ResItem.name = resources.map Prod.fst := by
      clear hnot
      induction resources generalizing t with
      | nil =>
        simp [ResourceGenerator.table] at ht
        subst ht
        simp
      | cons head rest ih =>
        obtain ⟨hn, hr⟩ := head
        cases hl : BUILDERS.lookup hr.fqn with
        | none => simp [ResourceGenerator.table, hl] at ht
        | some ae =>
          obtain ⟨a2, e2⟩ := ae
          cases hres : ResourceGenerator.table rest with
          | error e => simp [ResourceGenerator.table, hl, hres] at ht
          | ok t2 =>
            have ht2 : t = { name := hn, attrs := a2, expr := e2,
                             values := a2.map hr.attr } :: t2 := by
              simp [ResourceGenerator.table, hl, hres] at ht
              exact ht.symm
            subst ht2
            simp [ih t2 hres]
    have hfind : t.find? (fun it => it.name == name) = none := by
      rw [List.find?_eq_none]
      intro it hit
      have : it.name ∈ resources.map Prod.fst := by
        rw [← hnames]
        exact List.mem_map.mpr ⟨it, hit, rfl⟩
      simp only [beq_iff_eq]
      intro hc
      rw [hc] at this
      exact hnot this
    simp [moduleGetattr, List.lookup, hfind]

/-- C6 witness: with the single binding `bucket` (an s3 bucket whose resolved
attribute value is `my-bucket`), the generated module's table is computed,
`bucket` looks up to the reconstructed client and is cached, the repeated
lookup returns the cached result, and `missing` fails. -/
theorem claim_C6_witness :
    moduleGetattr [⟨"bucket", ["bucket"], "boto3.resource(\x27s3\x27).Bucket(bucket)",
        ["my-bucket"]⟩] [] "bucket" =
      (Except.ok ⟨"boto3.resource(\x27s3\x27).Bucket(bucket)", ["bucket"], ["my-bucket"]⟩,
       [("bucket", ⟨"boto3.resource(\x27s3\x27).Bucket(bucket)", ["bucket"], ["my-bucket"]⟩)])
    ∧ moduleGetattr [⟨"bucket", ["bucket"], "boto3.resource(\x27s3\x27).Bucket(bucket)",
        ["my-bucket"]⟩]
        [("bucket", ⟨"boto3.resource(\x27s3\x27).Bucket(bucket)", ["bucket"], ["my-bucket"]⟩)]
        "bucket" =
      (Except.ok ⟨"boto3.resource(\x27s3\x27).Bucket(bucket)", ["bucket"], ["my-bucket"]⟩,
       [("bucket", ⟨"boto3.resource(\x27s3\x27).Bucket(bucket)", ["bucket"], ["my-bucket"]⟩)])
    ∧ moduleGetattr [⟨"bucket", ["bucket"], "boto3.resource(\x27s3\x27).Bucket(bucket)",
        ["my-bucket"]⟩] [] "missing" =
      (Except.error (AttrError.attributeError "missing is not a defined resource"), []) := by
  have h1 := claim_C6.1
    [("bucket", ⟨"pulumi_aws.s3.bucket.Bucket", fun _ => "my-bucket"⟩)]
    [⟨"bucket", ["bucket"], "boto3.resource(\x27s3\x27).Bucket(bucket)", ["my-bucket"]⟩]
    "bucket" ⟨"pulumi_aws.s3.bucket.Bucket", fun _ => "my-bucket"⟩
    ["bucket"] "boto3.resource(\x27s3\x27).Bucket(bucket)"
    rfl (by simp) (List.mem_singleton.mpr rfl) rfl
  refine ⟨h1, claim_C6.2.1 _ _ _ _ _ h1, ?_⟩
  refine claim_C6.2.2
    [("bucket", ⟨"pulumi_aws.s3.bucket.Bucket", fun _ => "my-bucket"⟩)] _ "missing"
    rfl (by simp)

/-- The SHA3-256 digest always has exactly 32 bytes. -/
theorem sha3_256_length (msg : List Byte) : (sha3_256 msg).length = 32 := by
  simp [sha3_256, sha3_256Raw]

/-- C4 counterexample: cache-key equality cannot be equivalent to byte
equality over all byte sequences — the key is a fixed-length digest, so by
the pigeonhole principle over the infinitely many inputs `replicate n 0`
some two distinct inputs share a key. -/
theorem claim_C4_counterexample :
    ¬ ∀ A B : List Byte, cacheKey A = cacheKey B ↔ A = B := by
  intro h
  obtain ⟨a, b, hne, heq⟩ :=
    Finite.exists_ne_map_eq_of_infinite
      (fun n : Nat => fun i : Fin 32 =>
        (sha3_256 (List.replicate n (0 : Byte))).getD i.val 0)
  have hs : sha3_256 (List.replicate a (0 : Byte)) =
      sha3_256 (List.replicate b (0 : Byte)) := by
    apply List.ext_getElem (by simp [sha3_256_length])
    intro i h1 h2
    have h32 : i < 32 := by
      rw [sha3_256_length] at h1
      exact h1
    have hfun := congrFun heq ⟨i, h32⟩
    simp only [List.getD_eq_getElem?_getD] at hfun
    rw [List.getElem?_eq_getElem h1, List.getElem?_eq_getElem h2] at hfun
    simpa using hfun
  have hk : cacheKey (List.replicate a (0 : Byte)) =
      cacheKey (List.replicate b (0 : Byte)) := by
    rw [cacheKey, cacheKey, hs]
  have hrep := (h _ _).mp hk
  have hab : a = b := by
    have hlen := congrArg List.length hrep
    simpa using hlen
  exact hne hab

set_option maxRecDepth 1000000 in
/-- C4 amended: identical lock bytes always give identical cache keys, the
key is a fixed-length digest (32 bytes before hex encoding), and distinct
concrete fixtures give distinct keys — but key equality does not imply byte
equality over all byte sequences. -/
theorem claim_C4_amended :
    (∀ A B : List Byte, A = B → cacheKey A = cacheKey B)
    ∧ (∀ A : List Byte, (sha3_256 A).length = 32)
    ∧ cacheKey [0] ≠ cacheKey [1] := by
  refine ⟨fun A B hab => by rw [hab], sha3_256_length, ?_⟩
  decide

/-- C4 amended, witness: determinism applied at the empty byte sequence. -/
theorem claim_C4_amended_witness : cacheKey [] = cacheKey [] :=
  claim_C4_amended.1 [] [] rfl

/-- Filtered per-tree entries, stripped of timestamps, depend only on the
logical content (paths and bytes) of the walked files, provided the filter
judges a file by its relative path alone. -/
theorem tree_nameData_eq (q : SrcFile → Bool)
    (hq : ∀ c1 c2 : SrcFile, c1.relpath = c2.relpath → q c1 = q c2) :
    ∀ t1 t2 : List SrcFile, t1.map SrcFile.logical = t2.map SrcFile.logical →
      (((t1.filter q).map fun c =>
          ({ name := c.relpath.as_posix, data := EntryData.bytes c.data,
             time := ZTime.mtime c.mtime } : ZipEntry)).map ZipEntry.nameData) =
      (((t2.filter q).map fun c =>
          ({ name := c.relpath.as_posix, data := EntryData.bytes c.data,
             time := ZTime.mtime c.mtime } : ZipEntry)).map ZipEntry.nameData) := by
  intro t1
  induction t1 with
  | nil =>
    intro t2 h
    cases t2 with
    | nil => rfl
    | cons c r => simp at h
  | cons c1 r1 ih =>
    intro t2 h
    cases t2 with
    | nil => simp at h
    | cons c2 r2 =>
      simp only [List.map_cons, List.cons.injEq] at h
      obtain ⟨hhead, htail⟩ := h
      simp only [SrcFile.logical, Prod.mk.injEq] at hhead
      obtain ⟨hp, hd⟩ := hhead
      have hqq := hq c1 c2 hp
      cases hc : q c1 with
      | true =>
        rw [List.filter_cons_of_pos hc, List.filter_cons_of_pos (by rw [← hqq]; exact hc)]
        simp only [List.map_cons, ZipEntry.nameData]
        rw [hp, hd, ih r2 htail]
      | false =>
        rw [List.filter_cons_of_neg (by simp [hc]),
            List.filter_cons_of_neg (by simp [← hqq, hc])]
        exact ih r2 htail

/-- The name-and-payload view of all source-tree entries depends only on the
trees' logical content. -/
theorem sources_nameData_eq (q : SrcFile → Bool)
    (hq : ∀ c1 c2 : SrcFile, c1.relpath = c2.relpath → q c1 = q c2) :
    ∀ s1 s2 : List (List SrcFile),
      s1.map (List.map SrcFile.logical) = s2.map (List.map SrcFile.logical) →
      ((s1.flatMap fun t => (t.filter q).map fun c =>
          ({ name := c.relpath.as_posix, data := EntryData.bytes c.data,
             time := ZTime.mtime c.mtime } : ZipEntry)).map ZipEntry.nameData) =
      ((s2.flatMap fun t => (t.filter q).map fun c =>
          ({ name := c.relpath.as_posix, data := EntryData.bytes c.data,
             time := ZTime.mtime c.mtime } : ZipEntry)).map ZipEntry.nameData) := by
  intro s1
  induction s1 with
  | nil =>
    intro s2 h
    cases s2 with
    | nil => rfl
    | cons t r => simp at h
  | cons t1 r1 ih =>
    intro s2 h
    cases s2 with
    | nil => simp at h
    | cons t2 r2 =>
      simp only [List.map_cons, List.cons.injEq] at h
      obtain ⟨h1, h2⟩ := h
      simp only [List.flatMap_cons, List.map_append]
      rw [tree_nameData_eq q hq t1 t2 h1, ih r2 h2]

/-- C1 counterexample: two builds over identical logical inputs (same paths,
bytes, virtual files, and filter) differing only in a source file's host
modification time produce different archives — `ZipFile.write` stamps each
source entry with its file's mtime, so the claimed mtime-independent
byte-identity fails. -/
theorem claim_C1_counterexample :
    ¬ ∀ (dest : String) (s1 s2 : List (List SrcFile))
        (virtuals : List (String × String)) (filt : Option (RelPath → Bool)),
        s1.map (List.map SrcFile.logical) = s2.map (List.map SrcFile.logical) →
        PipenvPackage.build_zip dest s1 virtuals filt =
          PipenvPackage.build_zip dest s2 virtuals filt := by
  intro h
  have h2 := h "d.zip" [[⟨⟨"app", ["handler.py"]⟩, [], 100⟩]]
    [[⟨⟨"app", ["handler.py"]⟩, [], 200⟩]] [] none (by decide)
  exact absurd h2 (by decide)

/-- C1 amended: over identical logical inputs the two runs agree on the
entry set and per-entry payload bytes (the name-and-payload views are
identical even when mtimes differ), and every virtual entry is appended with
the fixed minimum-DOS-date timestamp; only the source entries' timestamps
follow the files' modification times. -/
theorem claim_C1_amended :
    (∀ (dest : String) (s1 s2 : List (List SrcFile))
        (virtuals : List (String × String)) (filt : Option (RelPath → Bool)),
        s1.map (List.map SrcFile.logical) = s2.map (List.map SrcFile.logical) →
        (PipenvPackage.build_zip dest s1 virtuals filt).map ZipEntry.nameData =
          (PipenvPackage.build_zip dest s2 virtuals filt).map ZipEntry.nameData)
    ∧ (∀ (dest : String) (s : List (List SrcFile))
        (virtuals : List (String × String)) (filt : Option (RelPath → Bool)),
        PipenvPackage.build_zip dest s virtuals filt =
          PipenvPackage.build_zip dest s [] filt
            ++ virtuals.map fun nd =>
                { name := nd.1, data := EntryData.text nd.2, time := ZTime.dosEpoch }) := by
  constructor
  · intro dest s1 s2 virtuals filt hlog
    unfold PipenvPackage.build_zip
    rw [List.map_append, List.map_append]
    congr 1
    exact sources_nameData_eq _
      (by
        intro c1 c2 hp
        cases filt with
        | none => rfl
        | some f => exact congrArg f hp)
      s1 s2 hlog
  · intro dest s virtuals filt
    unfold PipenvPackage.build_zip
    simp [mkzinfo]

/-- C1 amended, witness: concrete builds differing only in the source file's
mtime (100 vs 200) agree on names and payloads, virtual file included. -/
theorem claim_C1_amended_witness :
    (PipenvPackage.build_zip "d.zip" [[⟨⟨"app", ["handler.py"]⟩, [], 100⟩]]
        [("__res__.py", "x")] none).map ZipEntry.nameData =
      (PipenvPackage.build_zip "d.zip" [[⟨⟨"app", ["handler.py"]⟩, [], 200⟩]]
        [("__res__.py", "x")] none).map ZipEntry.nameData :=
  claim_C1_amended.1 _ _ _ _ _ (by decide)

end Deplumi
